import Mathlib

/-!
Verification development for the position-estimation engine of the
smo-tracker repository (src/js/lateration.js and the time-window
aggregation in src/js/dataHandler.js).

The JavaScript source is embedded shallowly:

* numeric computation (projection, lateration, Kalman filtering) is
  modelled over the real numbers, with the exact formulas of the source;
* the JS truthiness tests that the source performs on numbers
  (for example on an rssi value or on a variance value) are modelled
  explicitly, an absent object field being an `Option` that is `none`;
* the time-window aggregator moves its payload values around without
  doing arithmetic on them, so its payload fields are modelled over the
  rationals, which keeps that model fully executable;
* the 32-bit integer coercions of the JS string hash are modelled over
  the integers with an explicit reduction into the signed 32-bit range.
-/

/-! ## Geo projection (lateration.js, gpsToMeters / metersToGps) -/

/-- Earth radius constant used throughout lateration.js (6 371 000 m). -/
noncomputable def earthRadius : ℝ := 6371000

/-- gpsToMeters (lateration.js lines 46-54): equirectangular projection of
a latitude/longitude pair into local meters around a reference point. -/
noncomputable def gpsToMeters (lat lng refLat refLng : ℝ) : ℝ × ℝ :=
  let latRad := refLat * Real.pi / 180
  ((lng - refLng) * Real.pi / 180 * earthRadius * Real.cos latRad,
   (lat - refLat) * Real.pi / 180 * earthRadius)

/-- metersToGps (lateration.js lines 65-73): inverse of the
equirectangular projection. -/
noncomputable def metersToGps (x y refLat refLng : ℝ) : ℝ × ℝ :=
  let latRad := refLat * Real.pi / 180
  (refLat + (y / earthRadius) * (180 / Real.pi),
   refLng + (x / (earthRadius * Real.cos latRad)) * (180 / Real.pi))

/-! ## Lateration solver on local coordinates -/

/-- One observation after projection to local meters: the `pos`/`distance`
and `rssi` fields of a `points` element inside `trilaterate`.  The rssi
field of the JS observation object may be absent, hence an `Option`. -/
structure LocalObs where
  x : ℝ
  y : ℝ
  distance : ℝ
  rssi : Option ℝ


/-- A position produced by one of the estimation strategies.  The JS
objects returned by the strategies carry a `variance` field in some
branches and not in others; the field is therefore an `Option`. -/
structure EstPos where
  x : ℝ
  y : ℝ
  variance : Option ℝ


/-- distance (lateration.js lines 81-83): Euclidean distance between two
local points. -/
noncomputable def pointDistance (p q : ℝ × ℝ) : ℝ :=
  Real.sqrt ((q.1 - p.1) ^ 2 + (q.2 - p.2) ^ 2)

/-- estimateTwoSensorPosition (lateration.js lines 185-219): position on
the line through the two sensors, with the interpolation parameter
clamped to [-0.5, 1.5]; coincident sensors return the first point, and
in that branch the JS object has no variance field. -/
noncomputable def estimateTwoSensorPosition (p1 p2 : LocalObs) : EstPos :=
  let dx := p2.x - p1.x
  let dy := p2.y - p1.y
  let sensorDist := Real.sqrt (dx * dx + dy * dy)
  if sensorDist = 0 then
    ⟨p1.x, p1.y, none⟩
  else
    let d1 := p1.distance
    let d2 := p2.distance
    let t := (sensorDist * sensorDist + d1 * d1 - d2 * d2) /
      (2 * sensorDist * sensorDist)
    let tc := max (-0.5) (min 1.5 t)
    ⟨p1.x + tc * dx, p1.y + tc * dy, some |d1 + d2 - sensorDist|⟩

/-- The coefficient row that `estimateMultiSensorPosition` pushes onto `A`
for a non-reference point (lateration.js lines 250-253). -/
def rowA (ref p : LocalObs) : ℝ × ℝ :=
  (2 * (p.x - ref.x), 2 * (p.y - ref.y))

/-- The right-hand side that `estimateMultiSensorPosition` pushes onto `b`
(lateration.js lines 255-259). -/
def rowB (ref p : LocalObs) : ℝ :=
  ref.distance * ref.distance - p.distance * p.distance +
    p.x * p.x - ref.x * ref.x + p.y * p.y - ref.y * ref.y

/-- The weight that `estimateMultiSensorPosition` pushes onto `weights`
(lateration.js lines 263-265).  The rssi factor is guarded by JS
truthiness (`pi.rssi ? ... : 1`), so both an absent rssi and an rssi equal
to 0 yield the factor 1. -/
noncomputable def rowW (p : LocalObs) : ℝ :=
  let distWeight := 1 / (p.distance + 1)
  let rssiWeight : ℝ :=
    match p.rssi with
    | none => 1
    | some r => if r = 0 then 1 else (10 : ℝ) ^ ((r + 100) / 20)
  distWeight * rssiWeight

/-- solveWeightedLeastSquares (lateration.js lines 289-323): forms the
2x2 normal equations and solves them in closed form; if the determinant
is smaller than 1e-10 in absolute value it returns the unweighted
centroid of the rows of `A` instead. -/
noncomputable def solveWeightedLeastSquares
    (A : List (ℝ × ℝ)) (b w : List ℝ) : ℝ × ℝ :=
  let rows := A.zip (b.zip w)
  let ata00 := (rows.map (fun r => r.2.2 * r.1.1 * r.1.1)).sum
  let ata01 := (rows.map (fun r => r.2.2 * r.1.1 * r.1.2)).sum
  let ata10 := (rows.map (fun r => r.2.2 * r.1.2 * r.1.1)).sum
  let ata11 := (rows.map (fun r => r.2.2 * r.1.2 * r.1.2)).sum
  let atb0 := (rows.map (fun r => r.2.2 * r.1.1 * r.2.1)).sum
  let atb1 := (rows.map (fun r => r.2.2 * r.1.2 * r.2.1)).sum
  let det := ata00 * ata11 - ata01 * ata10
  if |det| < 1 / 10 ^ 10 then
    ((A.map Prod.fst).sum / (A.length : ℝ),
     (A.map Prod.snd).sum / (A.length : ℝ))
  else
    ((ata11 * atb0 - ata01 * atb1) / det,
     (ata00 * atb1 - ata10 * atb0) / det)

/-- estimateMultiSensorPosition (lateration.js lines 234-280): builds the
linearized system relative to the first point and solves it by weighted
least squares; the variance is the root mean square of the per-sensor
range residuals. -/
noncomputable def estimateMultiSensorPosition
    (ref : LocalObs) (rest : List LocalObs) : EstPos :=
  let A := rest.map (rowA ref)
  let b := rest.map (rowB ref)
  let w := rest.map rowW
  let r := solveWeightedLeastSquares A b w
  let pts := ref :: rest
  let sumSq := (pts.map
    (fun p => (pointDistance (r.1, r.2) (p.x, p.y) - p.distance) ^ 2)).sum
  ⟨r.1, r.2, some (Real.sqrt (sumSq / (pts.length : ℝ)))⟩

/-- calculateResidual (lateration.js lines 333-342): mean absolute range
residual of an estimated position. -/
noncomputable def calculateResidual (est : ℝ × ℝ) (pts : List LocalObs) : ℝ :=
  (pts.map (fun p => |pointDistance est (p.x, p.y) - p.distance|)).sum /
    (pts.length : ℝ)

/-! ## The JS string hash used for the single-sensor bearing -/

/-- Reduction of an integer into the signed 32-bit range, as performed by
the JS bitwise operators in `hash = hash & hash` and `hash << 5`. -/
def toInt32 (n : ℤ) : ℤ := (n + 2 ^ 31) % 2 ^ 32 - 2 ^ 31

/-- One step of the string hash loop (lateration.js lines 133-136):
`hash = ((hash << 5) - hash) + charCode` followed by the 32-bit
coercion `hash = hash & hash`. -/
def hashStep (h : ℤ) (c : Char) : ℤ :=
  toInt32 (toInt32 (h * 2 ^ 5) - h + (c.toNat : ℤ))

/-- The full string hash computed in the single-sensor branch of
`trilaterate` (lateration.js lines 132-136). -/
def jsStringHash (s : String) : ℤ := s.data.foldl hashStep 0

/-- The bearing, in whole degrees, derived from the hash
(lateration.js line 137): `Math.abs(hash) % 360`. -/
def hashAngleDeg (s : String) : ℤ := |jsStringHash s| % 360

/-! ## trilaterate and its helpers -/

/-- An observation as passed to `trilaterate`.  The `mac_hashed` field is
read by `trilaterate` but is absent from the observation objects built by
the data handler and the realtime buffer, hence an `Option`. -/
structure Obs where
  sensor_lat : ℝ
  sensor_lng : ℝ
  distance : ℝ
  rssi : Option ℝ
  mac_hashed : Option String

/-- The result object of `trilaterate` (lateration.js lines 167-175). -/
structure LatResult where
  lat : ℝ
  lng : ℝ
  qualityLevel : String
  sensorCount : ℕ
  observations : List Obs
  confidence : ℝ
  variance : ℝ

/-- The filter predicate of `trilaterate` (lateration.js line 100):
keep observations with `distance > 0 && distance < 200`. -/
noncomputable def validObsB (o : Obs) : Bool :=
  decide (0 < o.distance ∧ o.distance < 200)

/-- getQualityLevel (lateration.js lines 349-360). -/
def getQualityLevel (sensorCount : ℕ) : String :=
  if 3 ≤ sensorCount then "high"
  else if sensorCount = 2 then "medium"
  else "low"

/-- getConfidenceFromSensorCount (lateration.js lines 367-375). -/
def getConfidenceFromSensorCount (sensorCount : ℕ) : ℝ :=
  if 3 ≤ sensorCount then 1.0
  else if sensorCount = 2 then 0.5
  else 0.2

/-- The deterministic angle of the single-sensor branch (lateration.js
lines 129-138).  The JS guard `if (sensor.mac_hashed)` is a truthiness
test, false both for an absent field and for the empty string. -/
noncomputable def singleSensorAngle (o : Obs) : ℝ :=
  match o.mac_hashed with
  | none => 0
  | some s =>
      if s = "" then 0
      else ((hashAngleDeg s : ℝ)) * Real.pi / 180

/-- The single-sensor branch of `trilaterate` (lateration.js lines
119-149): the pair of the local estimate object and the GPS result. -/
noncomputable def singleSensorEstimate (o : Obs) : EstPos × (ℝ × ℝ) :=
  let d := o.distance
  let angle := singleSensorAngle o
  let latOffset := d * Real.cos angle / earthRadius * (180 / Real.pi)
  let lngOffset := d * Real.sin angle /
    (earthRadius * Real.cos (o.sensor_lat * Real.pi / 180)) * (180 / Real.pi)
  (⟨d * Real.sin angle, d * Real.cos angle, some d⟩,
   (o.sensor_lat + latOffset, o.sensor_lng + lngOffset))

/-- Projection of an observation into local coordinates around the
centroid reference point (lateration.js lines 111-114). -/
noncomputable def toLocal (o : Obs) (refLat refLng : ℝ) : LocalObs :=
  let p := gpsToMeters o.sensor_lat o.sensor_lng refLat refLng
  ⟨p.1, p.2, o.distance, o.rssi⟩

/-- trilaterate (lateration.js lines 98-176).  Observations with
non-positive distance or distance at least 200 are discarded; `none` is
returned when nothing survives; the strategy is chosen by the number of
surviving observations; the reported variance is
`estimatedPos.variance || residual`, a JS truthiness choice that falls
back to the residual when the variance field is absent or equal to 0. -/
noncomputable def trilaterate (observations : List Obs) : Option LatResult :=
  match observations.filter validObsB with
  | [] => none
  | o1 :: rest =>
    let vs := o1 :: rest
    let n := vs.length
    let refLat := (vs.map Obs.sensor_lat).sum / (n : ℝ)
    let refLng := (vs.map Obs.sensor_lng).sum / (n : ℝ)
    let locals := vs.map (fun o => toLocal o refLat refLng)
    let eg : EstPos × (ℝ × ℝ) :=
      match rest with
      | [] => singleSensorEstimate o1
      | [o2] =>
        let e := estimateTwoSensorPosition
          (toLocal o1 refLat refLng) (toLocal o2 refLat refLng)
        (e, metersToGps e.x e.y refLat refLng)
      | o2 :: o3 :: r3 =>
        let e := estimateMultiSensorPosition (toLocal o1 refLat refLng)
          ((o2 :: o3 :: r3).map (fun o => toLocal o refLat refLng))
        (e, metersToGps e.x e.y refLat refLng)
    let residual :=
      if 1 < n then calculateResidual (eg.1.x, eg.1.y) locals
      else o1.distance
    some
      { lat := eg.2.1
        lng := eg.2.2
        qualityLevel := getQualityLevel n
        sensorCount := n
        observations := vs
        confidence := getConfidenceFromSensorCount n
        variance :=
          match eg.1.variance with
          | none => residual
          | some v => if v = 0 then residual else v }

/-! ## Kalman filter (lateration.js lines 416-626) -/

/-- The Kalman state vector `[x, y, vx, vy]` (local meters). -/
structure KVec where
  v0 : ℝ
  v1 : ℝ
  v2 : ℝ
  v3 : ℝ

/-- The 4x4 covariance matrix, one field per entry `P[i][j]`. -/
structure KMat where
  p00 : ℝ
  p01 : ℝ
  p02 : ℝ
  p03 : ℝ
  p10 : ℝ
  p11 : ℝ
  p12 : ℝ
  p13 : ℝ
  p20 : ℝ
  p21 : ℝ
  p22 : ℝ
  p23 : ℝ
  p30 : ℝ
  p31 : ℝ
  p32 : ℝ
  p33 : ℝ

/-- KALMAN_CONFIG.processNoise (lateration.js line 438). -/
noncomputable def processNoise : ℝ := 0.5

/-- KALMAN_CONFIG.measurementNoise (lateration.js line 442). -/
noncomputable def measurementNoiseBase : ℝ := 2.0

/-- KALMAN_CONFIG.dt (lateration.js line 445). -/
noncomputable def kalmanDt : ℝ := 1.0

/-- The initial covariance diag(100, 100, 10, 10) of `createKalmanState`
(lateration.js lines 461-466). -/
noncomputable def initialCovariance : KMat :=
  ⟨100, 0, 0, 0,
   0, 100, 0, 0,
   0, 0, 10, 0,
   0, 0, 0, 10⟩

/-- A per-device Kalman state.  `createKalmanState` builds the vector and
covariance (lateration.js lines 454-471) and `applyKalmanFilter` then
attaches the fixed anchor `refLat`/`refLng` (lines 595-596).  The
wall-clock `lastUpdate` field is not modelled. -/
structure KState where
  vec : KVec
  P : KMat
  refLat : ℝ
  refLng : ℝ

/-- kalmanPredict (lateration.js lines 480-508): constant-velocity
prediction of the state and the analytic covariance propagation with the
process noise added on the diagonal. -/
noncomputable def kalmanPredict (x : KVec) (P : KMat) (dt : ℝ) : KVec × KMat :=
  let q := processNoise
  (⟨x.v0 + x.v2 * dt, x.v1 + x.v3 * dt, x.v2, x.v3⟩,
   ⟨P.p00 + 2 * dt * P.p02 + dt * dt * P.p22 + q,
    P.p01 + dt * P.p03 + dt * P.p21 + dt * dt * P.p23,
    P.p02 + dt * P.p22,
    P.p03 + dt * P.p23,
    P.p10 + dt * P.p12 + dt * P.p30 + dt * dt * P.p32,
    P.p11 + 2 * dt * P.p13 + dt * dt * P.p33 + q,
    P.p12 + dt * P.p32,
    P.p13 + dt * P.p33,
    P.p20 + dt * P.p22,
    P.p21 + dt * P.p23,
    P.p22 + q,
    P.p23,
    P.p30 + dt * P.p32,
    P.p31 + dt * P.p33,
    P.p32,
    P.p33 + q⟩)

/-- kalmanUpdate (lateration.js lines 519-573): the position-only
measurement update; when the 2x2 innovation covariance is singular
(determinant below 1e-10 in magnitude) the prediction is returned
unchanged. -/
noncomputable def kalmanUpdate (predicted : KVec × KMat) (mx my r : ℝ) :
    KVec × KMat :=
  let x := predicted.1
  let P := predicted.2
  let y0 := mx - x.v0
  let y1 := my - x.v1
  let s00 := P.p00 + r
  let s01 := P.p01
  let s10 := P.p10
  let s11 := P.p11 + r
  let det := s00 * s11 - s01 * s10
  if |det| < 1 / 10 ^ 10 then predicted
  else
    let si00 := s11 / det
    let si01 := -s01 / det
    let si10 := -s10 / det
    let si11 := s00 / det
    let k00 := P.p00 * si00 + P.p01 * si10
    let k01 := P.p00 * si01 + P.p01 * si11
    let k10 := P.p10 * si00 + P.p11 * si10
    let k11 := P.p10 * si01 + P.p11 * si11
    let k20 := P.p20 * si00 + P.p21 * si10
    let k21 := P.p20 * si01 + P.p21 * si11
    let k30 := P.p30 * si00 + P.p31 * si10
    let k31 := P.p30 * si01 + P.p31 * si11
    (⟨x.v0 + k00 * y0 + k01 * y1,
      x.v1 + k10 * y0 + k11 * y1,
      x.v2 + k20 * y0 + k21 * y1,
      x.v3 + k30 * y0 + k31 * y1⟩,
     ⟨(1 - k00) * P.p00 - k01 * P.p10,
      (1 - k00) * P.p01 - k01 * P.p11,
      P.p02 - k00 * P.p02 - k01 * P.p12,
      P.p03 - k00 * P.p03 - k01 * P.p13,
      -k10 * P.p00 + (1 - k11) * P.p10,
      -k10 * P.p01 + (1 - k11) * P.p11,
      P.p12 - k10 * P.p02 - k11 * P.p12,
      P.p13 - k10 * P.p03 - k11 * P.p13,
      -k20 * P.p00 - k21 * P.p10 + P.p20,
      -k20 * P.p01 - k21 * P.p11 + P.p21,
      P.p22 - k20 * P.p02 - k21 * P.p12,
      P.p23 - k20 * P.p03 - k21 * P.p13,
      -k30 * P.p00 - k31 * P.p10 + P.p30,
      -k30 * P.p01 - k31 * P.p11 + P.p31,
      P.p32 - k30 * P.p02 - k31 * P.p12,
      P.p33 - k30 * P.p03 - k31 * P.p13⟩)

/-- Lookup of the per-device Kalman state in `kalmanStates`
(`kalmanStates.get(deviceId)`), the map being modelled as an association
list. -/
def lookupState (states : List (String × KState)) (deviceId : String) :
    Option KState :=
  match states with
  | [] => none
  | (k, s) :: rest => if k = deviceId then some s else lookupState rest deviceId

/-- `kalmanStates.set(deviceId, state)` on the association list model:
replace the entry when present, append otherwise. -/
def setState (states : List (String × KState)) (deviceId : String)
    (s : KState) : List (String × KState) :=
  match states with
  | [] => [(deviceId, s)]
  | (k, t) :: rest =>
    if k = deviceId then (k, s) :: rest
    else (k, t) :: setState rest deviceId s

/-- applyKalmanFilter (lateration.js lines 583-626), with the mutable
`kalmanStates` map made an explicit argument and result.  On the first
call for a device the raw measurement is returned and a state anchored at
that measurement is stored; on later calls the measurement is projected
into the stored anchor frame, predict and update run, and the smoothed
position is projected back through the same anchor. -/
noncomputable def applyKalmanFilter (states : List (String × KState))
    (deviceId : String) (measuredLat measuredLng quality : ℝ) :
    (ℝ × ℝ) × List (String × KState) :=
  let measured := gpsToMeters measuredLat measuredLng measuredLat measuredLng
  match lookupState states deviceId with
  | none =>
    let st : KState :=
      { vec := ⟨measured.1, measured.2, 0, 0⟩
        P := initialCovariance
        refLat := measuredLat
        refLng := measuredLng }
    ((measuredLat, measuredLng), setState states deviceId st)
  | some st =>
    let measInState := gpsToMeters measuredLat measuredLng st.refLat st.refLng
    let measurementNoise := measurementNoiseBase * (1 + quality / 10)
    let predicted := kalmanPredict st.vec st.P kalmanDt
    let updated := kalmanUpdate predicted measInState.1 measInState.2
      measurementNoise
    let st' : KState := { st with vec := updated.1, P := updated.2 }
    (metersToGps updated.1.v0 updated.1.v1 st.refLat st.refLng,
     setState states deviceId st')

/-! ## Module-level mutable state of the Lateration module -/

/-- The module-level mutable state of lateration.js: the result cache
(line 31), the per-device Kalman states (line 432) and the enabled flag
(line 34). -/
structure LaterationState where
  resultCache : List (String × Option LatResult)
  kalmanStates : List (String × KState)
  kalmanEnabled : Bool

/-- resetKalmanFilters (lateration.js lines 692-694): clear all
per-device Kalman states. -/
def resetKalmanFilters (s : LaterationState) : LaterationState :=
  { s with kalmanStates := [] }

/-- setKalmanEnabled (lateration.js lines 700-707): set the flag and, when
enabling, additionally reset the Kalman states; nothing else is
touched. -/
def setKalmanEnabled (enabled : Bool) (s : LaterationState) :
    LaterationState :=
  let s' := { s with kalmanEnabled := enabled }
  if enabled then resetKalmanFilters s' else s'

/-! ## The result-validation guard of computeAllPositions -/

/-- A JS number as it matters to the validation guard: an ordinary finite
value, NaN, or a signed infinity.  The guard of `computeAllPositions`
classifies computed coordinates among these; the arithmetic that produces
them is upstream, so the finite payload is kept abstract as a
rational. -/
inductive JSNum where
  | num (q : ℚ)
  | nan
  | inf
  | ninf
deriving DecidableEq

/-- The JS `isNaN` predicate on such a value: true exactly on NaN
(infinities are NOT NaN). -/
def jsIsNaN : JSNum → Bool
  | JSNum.nan => true
  | _ => false

/-- The JS `Number.isFinite` classification: true exactly on ordinary
numbers. -/
def jsIsFinite : JSNum → Bool
  | JSNum.num _ => true
  | _ => false

/-- A computed per-device result as it reaches the push guard of
`computeAllPositions` (lateration.js line 648), reduced to the fields the
guard reads. -/
structure ComputedResult where
  macHashed : String
  lat : JSNum
  lng : JSNum
deriving DecidableEq

/-- The dropping logic of computeAllPositions (lateration.js lines
645-684) over the already-computed per-device results, with smoothing
disabled so that the final coordinates are the raw ones: a result is kept
exactly when `!isNaN(result.lat) && !isNaN(result.lng)`; nothing is ever
raised, results failing the guard are skipped silently. -/
def computeAllPositionsKeep (results : List ComputedResult) :
    List ComputedResult :=
  results.filter (fun r => !jsIsNaN r.lat && !jsIsNaN r.lng)

/-! ## Time-window aggregator (dataHandler.js lines 562-609) -/

/-- One device reading inside a sensor entry of the historical store.
The aggregator only moves these values, so the payload is modelled over
the rationals, keeping this model executable. -/
structure DevReading where
  mac_hashed : String
  distance : ℚ
  rssi : Option ℚ
deriving DecidableEq

/-- One historical entry: a sensor (device_key) with its GPS position and
the list of device readings it reported. -/
structure SensorEntry where
  device_key : String
  gps_lat : ℚ
  gps_lng : ℚ
  devices : List DevReading
deriving DecidableEq

/-- The observation pushed by getDevicesInTimeWindow (dataHandler.js
lines 593-601).  Note that no `mac_hashed` field is included. -/
structure AggObs where
  sensor_id : String
  distance : ℚ
  rssi : Option ℚ
  sensor_lat : ℚ
  sensor_lng : ℚ
  original_timestamp : ℤ
  time_offset_ms : ℤ
deriving DecidableEq

/-- The historical store of dataHandler.js: the sorted list of timestamp
keys (in epoch milliseconds, the value of `new Date(ts).getTime()`) and
the `dataByTimestamp` map, modelled as an association list. -/
structure Store where
  timestamps : List ℤ
  dataByTimestamp : List (ℤ × List SensorEntry)

/-- `dataByTimestamp.get(ts) || []` on the association-list model. -/
def lookupData (m : List (ℤ × List SensorEntry)) (t : ℤ) : List SensorEntry :=
  match m with
  | [] => []
  | (k, es) :: rest => if k = t then es else lookupData rest t

/-- The observation object built at dataHandler.js lines 593-601. -/
def mkAggObs (target t : ℤ) (e : SensorEntry) (d : DevReading) : AggObs :=
  ⟨e.device_key, d.distance, d.rssi, e.gps_lat, e.gps_lng, t, t - target⟩

/-- The deduplication key of dataHandler.js line 584:
the template string `sensor-key_mac`. -/
def readingKey (e : SensorEntry) (d : DevReading) : String :=
  e.device_key ++ "_" ++ d.mac_hashed

/-- `deviceMap.get(mac).push(obs)` with on-demand creation of the entry
(dataHandler.js lines 589-601), on the insertion-ordered association-list
model of the JS Map. -/
def pushObs (m : List (String × List AggObs)) (mac : String) (o : AggObs) :
    List (String × List AggObs) :=
  match m with
  | [] => [(mac, [o])]
  | (k, xs) :: rest =>
    if k = mac then (k, xs ++ [o]) :: rest
    else (k, xs) :: pushObs rest mac o

/-- The mutable state threaded through the aggregation loop: the
`processedReadings` set (as a list of keys, membership is all that is
used) and the device map. -/
structure AggState where
  processed : List String
  deviceMap : List (String × List AggObs)

/-- The body of the innermost loop of getDevicesInTimeWindow
(dataHandler.js lines 582-603): skip an already-processed
sensor-device key, otherwise record it and push the observation. -/
def aggStep (target t : ℤ) (e : SensorEntry) (st : AggState)
    (d : DevReading) : AggState :=
  let key := readingKey e d
  if key ∈ st.processed then st
  else ⟨key :: st.processed, pushObs st.deviceMap d.mac_hashed (mkAggObs target t e d)⟩

/-- getDevicesInTimeWindow (dataHandler.js lines 562-609): fold over all
known timestamps, entering only those in the symmetric window, and inside
over every entry and every reading. -/
def getDevicesInTimeWindow (store : Store) (target W : ℤ) :
    List (String × List AggObs) :=
  (store.timestamps.foldl
    (fun (st : AggState) (ts : ℤ) =>
      if target - W ≤ ts ∧ ts ≤ target + W then
        (lookupData store.dataByTimestamp ts).foldl
          (fun (st : AggState) (e : SensorEntry) =>
            e.devices.foldl (aggStep target ts e) st) st
      else st)
    ⟨[], []⟩).deviceMap

/-- The in-window traversal sequence of the aggregation loop, flattened:
every (timestamp, entry, reading) triple that the loop visits, in
visiting order. -/
def windowTriples (store : Store) (target W : ℤ) :
    List (ℤ × SensorEntry × DevReading) :=
  (store.timestamps.filter
    (fun ts => decide (target - W ≤ ts ∧ ts ≤ target + W))).flatMap
    (fun ts => (lookupData store.dataByTimestamp ts).flatMap
      (fun e => e.devices.map (fun d => (ts, e, d))))

/-- The deduplication key of a visited triple. -/
def tripleKey (t : ℤ × SensorEntry × DevReading) : String :=
  readingKey t.2.1 t.2.2

/-- The (sensor, device) identity pair of a visited triple. -/
def triplePair (t : ℤ × SensorEntry × DevReading) : String × String :=
  (t.2.1.device_key, t.2.2.mac_hashed)

/-- The device identity of a visited triple. -/
def tripleMac (t : ℤ × SensorEntry × DevReading) : String :=
  t.2.2.mac_hashed

/-- Modelled from the spec wording (claim C4, spec section 4.3): keep at
most one reading per (sensor, device) PAIR across the whole window,
first-seen wins, later duplicate readings for an already-seen pair are
discarded.  Defined for comparison with the key-string deduplication that
the code performs. -/
def specKeeps : List (ℤ × SensorEntry × DevReading) →
    List (ℤ × SensorEntry × DevReading)
  | [] => []
  | t :: rest =>
    t :: specKeeps (rest.filter (fun u => decide (triplePair u ≠ triplePair t)))
termination_by l => l.length
decreasing_by
  simp_wf
  exact Nat.lt_succ_of_le (List.length_filter_le _ _)

/-- Modelled from the spec wording (claim C4, spec section 4.3): group
the kept readings by device, in traversal order. -/
def groupByDevice (target : ℤ) (K : List (ℤ × SensorEntry × DevReading)) :
    List (String × List AggObs) :=
  K.foldl (fun m t => pushObs m (tripleMac t) (mkAggObs target t.1 t.2.1 t.2.2)) []

/-- Modelled from the spec wording (claim C4, spec section 4.3): the
window aggregation as the claim describes it, with deduplication by the
(sensor, device) pair itself. -/
def specAggregate (store : Store) (target W : ℤ) :
    List (String × List AggObs) :=
  groupByDevice target (specKeeps (windowTriples store target W))

/-! ## Spec-side definitions for the multi-sensor weights (claim C1) -/

/-- Modelled from the spec wording (claim C1, spec section 4.2): the
coefficient rows `2(x_i - x_1), 2(y_i - y_1)` of the linearized system. -/
def specRowsA (ref : LocalObs) (rest : List LocalObs) : List (ℝ × ℝ) :=
  rest.map (fun p => (2 * (p.x - ref.x), 2 * (p.y - ref.y)))

/-- Modelled from the spec wording (claim C1, spec section 4.2): the
right-hand sides `d_1^2 - d_i^2 + x_i^2 - x_1^2 + y_i^2 - y_1^2`. -/
def specRhsB (ref : LocalObs) (rest : List LocalObs) : List ℝ :=
  rest.map (fun p => ref.distance ^ 2 - p.distance ^ 2 +
    p.x ^ 2 - ref.x ^ 2 + p.y ^ 2 - ref.y ^ 2)

/-- Modelled from the spec wording (claim C1, spec section 4.2), as the
claim states it: weight `(1/(d_i+1)) * 10^((rssi_i+100)/20)`, with only a
MISSING rssi contributing the signal factor 1. -/
noncomputable def specWeightsClaim (rest : List LocalObs) : List ℝ :=
  rest.map (fun p => (1 / (p.distance + 1)) *
    (match p.rssi with
     | none => 1
     | some r => (10 : ℝ) ^ ((r + 100) / 20)))

/-- The claim C1 weight formula amended for the JS truthiness of the rssi
guard: an rssi that is absent OR equal to 0 contributes the signal
factor 1. -/
noncomputable def specWeightsAmended (rest : List LocalObs) : List ℝ :=
  rest.map (fun p => (1 / (p.distance + 1)) *
    (match p.rssi with
     | none => 1
     | some r => if r = 0 then 1 else (10 : ℝ) ^ ((r + 100) / 20)))

/-! ## Helper formulations of the aggregation loop used in the proofs -/

/-- The aggregation loop rewritten as a single fold over the flattened
traversal sequence. -/
def aggFold (target : ℤ) (L : List (ℤ × SensorEntry × DevReading))
    (st : AggState) : AggState :=
  L.foldl (fun st t => aggStep target t.1 t.2.1 st t.2.2) st

/-- Generic first-seen deduplication of a traversal sequence by an
arbitrary key function, threading the set of already-seen keys. -/
def keptBy {κ : Type} [DecidableEq κ] (f : (ℤ × SensorEntry × DevReading) → κ) :
    List (ℤ × SensorEntry × DevReading) → List κ →
    List (ℤ × SensorEntry × DevReading)
  | [], _ => []
  | t :: rest, seen =>
    if f t ∈ seen then keptBy f rest seen
    else t :: keptBy f rest (f t :: seen)

/-- The string that the deduplication key of the code assigns to a
(sensor, device) pair. -/
def keyOfPair (p : String × String) : String := p.1 ++ "_" ++ p.2

/-- Lookup in the device map (association list). -/
def lookupMap (m : List (String × List AggObs)) (mac : String) :
    Option (List AggObs) :=
  match m with
  | [] => none
  | (k, xs) :: rest => if k = mac then some xs else lookupMap rest mac

/-- The determinant of the weighted normal matrix computed inside
`solveWeightedLeastSquares` (lateration.js line 307), as a standalone
expression so that the singular-fallback condition can be stated. -/
noncomputable def wlsDet (A : List (ℝ × ℝ)) (b w : List ℝ) : ℝ :=
  let rows := A.zip (b.zip w)
  (rows.map (fun r => r.2.2 * r.1.1 * r.1.1)).sum *
      (rows.map (fun r => r.2.2 * r.1.2 * r.1.2)).sum -
    (rows.map (fun r => r.2.2 * r.1.1 * r.1.2)).sum *
      (rows.map (fun r => r.2.2 * r.1.2 * r.1.1)).sum

/-! ## Theorems -/

/-- Claim C10: `setKalmanEnabled(true)` clears all per-device Kalman
states, also when smoothing was already enabled (the reset is
unconditional on the previous flag value); `setKalmanEnabled(false)`
leaves every Kalman state in place; neither call touches the lateration
result cache; and the flag always becomes the given value. -/
theorem setKalmanEnabled_effects (s : LaterationState) :
    (setKalmanEnabled true s).kalmanStates = [] ∧
    (setKalmanEnabled false s).kalmanStates = s.kalmanStates ∧
    (∀ e : Bool, (setKalmanEnabled e s).resultCache = s.resultCache) ∧
    (∀ e : Bool, (setKalmanEnabled e s).kalmanEnabled = e) := by
  refine ⟨rfl, rfl, ?_, ?_⟩ <;> intro e <;> cases e <;> rfl

/-- Claim C9: converting a GPS point to local meters and back through the
same reference point is the identity, exactly, over the reals, whenever
the cosine of the reference latitude is nonzero. -/
theorem metersToGps_gpsToMeters (lat lng refLat refLng : ℝ)
    (h : Real.cos (refLat * Real.pi / 180) ≠ 0) :
    metersToGps (gpsToMeters lat lng refLat refLng).1
      (gpsToMeters lat lng refLat refLng).2 refLat refLng = (lat, lng) := by
  have hπ : Real.pi ≠ 0 := Real.pi_ne_zero
  simp only [metersToGps, gpsToMeters, earthRadius, Prod.mk.injEq]
  constructor
  · field_simp
    ring
  · field_simp
    ring

/-- Witness for claim C9 at the reference latitude 0. -/
theorem metersToGps_gpsToMeters_witness :
    Real.cos ((0 : ℝ) * Real.pi / 180) ≠ 0 ∧
      metersToGps (gpsToMeters 50 6 0 0).1 (gpsToMeters 50 6 0 0).2 0 0 =
        (50, 6) := by
  have h : Real.cos ((0 : ℝ) * Real.pi / 180) ≠ 0 := by
    rw [show (0 : ℝ) * Real.pi / 180 = 0 by ring, Real.cos_zero]
    norm_num
  exact ⟨h, metersToGps_gpsToMeters 50 6 0 0 h⟩

/-- Claim C6, amended: a computed result is kept by the validation guard
of `computeAllPositions` exactly when neither coordinate is NaN; only NaN
coordinates are dropped (silently), while infinite coordinates pass the
`isNaN` test and are returned. -/
theorem computeAllPositionsKeep_spec (results : List ComputedResult)
    (r : ComputedResult) :
    r ∈ computeAllPositionsKeep results ↔
      r ∈ results ∧ jsIsNaN r.lat = false ∧ jsIsNaN r.lng = false := by
  simp [computeAllPositionsKeep, List.mem_filter, Bool.and_eq_true,
    Bool.not_eq_true']

/-- Counterexample to claim C6 as stated: a result whose latitude is
positive infinity is NOT omitted - it passes the `isNaN` guard and is
returned although its latitude is not finite. -/
theorem computeAllPositionsKeep_counterexample :
    computeAllPositionsKeep [⟨"d", JSNum.inf, JSNum.num 6⟩] =
      [⟨"d", JSNum.inf, JSNum.num 6⟩] ∧
    jsIsFinite JSNum.inf = false := by
  exact ⟨rfl, rfl⟩

/-- Claim C2: for two sensors with separation D, when D is positive the
returned position is P1 + t (P2 - P1) with
t = (D^2 + d1^2 - d2^2) / (2 D^2) clamped into [-0.5, 1.5] (so the point
is always well defined, also for inconsistent circles with d1 + d2 < D),
and the variance field is |d1 + d2 - D|; when D = 0 the returned position
is P1 itself. -/
theorem estimateTwoSensorPosition_spec (p1 p2 : LocalObs) (D : ℝ)
    (hD : D = Real.sqrt ((p2.x - p1.x) * (p2.x - p1.x) +
      (p2.y - p1.y) * (p2.y - p1.y))) :
    (0 < D →
      estimateTwoSensorPosition p1 p2 =
        ⟨p1.x + (max (-0.5) (min 1.5
            ((D * D + p1.distance * p1.distance - p2.distance * p2.distance) /
              (2 * D * D)))) * (p2.x - p1.x),
         p1.y + (max (-0.5) (min 1.5
            ((D * D + p1.distance * p1.distance - p2.distance * p2.distance) /
              (2 * D * D)))) * (p2.y - p1.y),
         some |p1.distance + p2.distance - D|⟩ ∧
      -0.5 ≤ max (-0.5) (min 1.5
        ((D * D + p1.distance * p1.distance - p2.distance * p2.distance) /
          (2 * D * D))) ∧
      max (-0.5) (min 1.5
        ((D * D + p1.distance * p1.distance - p2.distance * p2.distance) /
          (2 * D * D))) ≤ 1.5) ∧
    (D = 0 → estimateTwoSensorPosition p1 p2 = ⟨p1.x, p1.y, none⟩) := by
  constructor
  · intro hpos
    refine ⟨?_, le_max_left _ _, max_le (by norm_num) (min_le_left _ _)⟩
    simp only [estimateTwoSensorPosition, ← hD]
    rw [if_neg hpos.ne']
  · intro hzero
    simp only [estimateTwoSensorPosition, ← hD]
    rw [if_pos hzero]

/-- Witness for claim C2: sensors 20 m apart with measured distances 5
and 17 give t = 0.17 and the point (3.4, 0), with variance 2. -/
theorem estimateTwoSensorPosition_spec_witness :
    (0 : ℝ) < 20 ∧
    estimateTwoSensorPosition ⟨0, 0, 5, none⟩ ⟨20, 0, 17, none⟩ =
      ⟨17 / 5, 0, some 2⟩ := by
  have hD : (20 : ℝ) = Real.sqrt
      (((⟨20, 0, 17, none⟩ : LocalObs).x - (⟨0, 0, 5, none⟩ : LocalObs).x) *
        ((⟨20, 0, 17, none⟩ : LocalObs).x - (⟨0, 0, 5, none⟩ : LocalObs).x) +
       ((⟨20, 0, 17, none⟩ : LocalObs).y - (⟨0, 0, 5, none⟩ : LocalObs).y) *
        ((⟨20, 0, 17, none⟩ : LocalObs).y - (⟨0, 0, 5, none⟩ : LocalObs).y)) := by
    rw [show ((⟨20, 0, 17, none⟩ : LocalObs).x - (⟨0, 0, 5, none⟩ : LocalObs).x) *
        ((⟨20, 0, 17, none⟩ : LocalObs).x - (⟨0, 0, 5, none⟩ : LocalObs).x) +
       ((⟨20, 0, 17, none⟩ : LocalObs).y - (⟨0, 0, 5, none⟩ : LocalObs).y) *
        ((⟨20, 0, 17, none⟩ : LocalObs).y - (⟨0, 0, 5, none⟩ : LocalObs).y) =
        (20 : ℝ) ^ 2 by norm_num]
    rw [Real.sqrt_sq (by norm_num : (0:ℝ) ≤ 20)]
  have h := ((estimateTwoSensorPosition_spec ⟨0, 0, 5, none⟩ ⟨20, 0, 17, none⟩
    20 hD).1 (by norm_num)).1
  refine ⟨by norm_num, ?_⟩
  rw [h]
  have harg : ((20 : ℝ) * 20 + (⟨0, 0, 5, none⟩ : LocalObs).distance *
      (⟨0, 0, 5, none⟩ : LocalObs).distance -
      (⟨20, 0, 17, none⟩ : LocalObs).distance *
      (⟨20, 0, 17, none⟩ : LocalObs).distance) / (2 * 20 * 20) = 17 / 100 := by
    norm_num
  rw [harg, min_eq_right (by norm_num), max_eq_right (by norm_num)]
  have habs : |(⟨0, 0, 5, none⟩ : LocalObs).distance +
      (⟨20, 0, 17, none⟩ : LocalObs).distance - (20 : ℝ)| = 2 := by
    rw [show (⟨0, 0, 5, none⟩ : LocalObs).distance +
      (⟨20, 0, 17, none⟩ : LocalObs).distance - (20 : ℝ) = 2 by norm_num]
    rw [abs_of_nonneg (by norm_num : (0:ℝ) ≤ 2)]
  rw [habs]
  norm_num

/-- Helper: the singular branch of `solveWeightedLeastSquares` returns
the unweighted centroid of the rows of `A`. -/
theorem solveWLS_singular (A : List (ℝ × ℝ)) (b w : List ℝ)
    (h : |wlsDet A b w| < 1 / 10 ^ 10) :
    solveWeightedLeastSquares A b w =
      ((A.map Prod.fst).sum / (A.length : ℝ),
       (A.map Prod.snd).sum / (A.length : ℝ)) := by
  simp only [wlsDet] at h
  simp only [solveWeightedLeastSquares]
  rw [if_pos h]

/-- Claim C7: when the weighted normal matrix of the linearized system is
near-singular (absolute determinant below 1e-10), the multi-sensor solver
still returns a position, namely the arithmetic mean of the coefficient
rows (2(x_i - x_1), 2(y_i - y_1)) over the n-1 equations. -/
theorem estimateMultiSensorPosition_singular (ref : LocalObs)
    (rest : List LocalObs) (_hn : 2 ≤ rest.length)
    (hdet : |wlsDet (rest.map (rowA ref)) (rest.map (rowB ref))
      (rest.map rowW)| < 1 / 10 ^ 10) :
    (estimateMultiSensorPosition ref rest).x =
      (rest.map (fun p => 2 * (p.x - ref.x))).sum / (rest.length : ℝ) ∧
    (estimateMultiSensorPosition ref rest).y =
      (rest.map (fun p => 2 * (p.y - ref.y))).sum / (rest.length : ℝ) := by
  have h := solveWLS_singular _ _ _ hdet
  simp only [estimateMultiSensorPosition, h, List.map_map, List.length_map]
  constructor
  · rfl
  · rfl

/-- Witness for claim C7: three collinear sensors at local x = 0, 1, 2,
each with measured distance 1; the fallback position is the centroid
(3, 0) of the rows (2, 0) and (4, 0). -/
theorem estimateMultiSensorPosition_singular_witness :
    2 ≤ ([⟨1, 0, 1, none⟩, ⟨2, 0, 1, none⟩] : List LocalObs).length ∧
    |wlsDet (([⟨1, 0, 1, none⟩, ⟨2, 0, 1, none⟩] : List LocalObs).map
        (rowA ⟨0, 0, 1, none⟩))
      (([⟨1, 0, 1, none⟩, ⟨2, 0, 1, none⟩] : List LocalObs).map
        (rowB ⟨0, 0, 1, none⟩))
      (([⟨1, 0, 1, none⟩, ⟨2, 0, 1, none⟩] : List LocalObs).map rowW)| <
      1 / 10 ^ 10 ∧
    (estimateMultiSensorPosition ⟨0, 0, 1, none⟩
      [⟨1, 0, 1, none⟩, ⟨2, 0, 1, none⟩]).x = 3 ∧
    (estimateMultiSensorPosition ⟨0, 0, 1, none⟩
      [⟨1, 0, 1, none⟩, ⟨2, 0, 1, none⟩]).y = 0 := by
  have hdet : |wlsDet (([⟨1, 0, 1, none⟩, ⟨2, 0, 1, none⟩] : List LocalObs).map
        (rowA ⟨0, 0, 1, none⟩))
      (([⟨1, 0, 1, none⟩, ⟨2, 0, 1, none⟩] : List LocalObs).map
        (rowB ⟨0, 0, 1, none⟩))
      (([⟨1, 0, 1, none⟩, ⟨2, 0, 1, none⟩] : List LocalObs).map rowW)| <
      1 / 10 ^ 10 := by
    simp [wlsDet, rowA, rowB, rowW]
  have h := estimateMultiSensorPosition_singular ⟨0, 0, 1, none⟩
    [⟨1, 0, 1, none⟩, ⟨2, 0, 1, none⟩] (by norm_num) hdet
  refine ⟨by norm_num, hdet, ?_, ?_⟩
  · rw [h.1]; norm_num
  · rw [h.2]; norm_num

/-- Claim C1, amended: for n >= 3 sensors the solver builds n-1
linearized equations by subtracting the circle equation of the first sensor
and solves the weighted 2x2 normal-equations system, the weight of the
equation of sensor i being (1/(d_i+1)) * 10^((rssi_i+100)/20) with the
signal factor 1 both for a MISSING rssi and for an rssi equal to 0 (the
code guards the rssi factor with JS truthiness). -/
theorem estimateMultiSensorPosition_weights (ref : LocalObs)
    (rest : List LocalObs) (_hn : 2 ≤ rest.length) :
    (specRowsA ref rest).length = (ref :: rest).length - 1 ∧
    (estimateMultiSensorPosition ref rest).x =
      (solveWeightedLeastSquares (specRowsA ref rest) (specRhsB ref rest)
        (specWeightsAmended rest)).1 ∧
    (estimateMultiSensorPosition ref rest).y =
      (solveWeightedLeastSquares (specRowsA ref rest) (specRhsB ref rest)
        (specWeightsAmended rest)).2 := by
  have hA : rest.map (rowA ref) = specRowsA ref rest := rfl
  have hB : rest.map (rowB ref) = specRhsB ref rest := by
    simp only [specRhsB]
    refine List.map_congr_left ?_
    intro p _
    simp only [rowB]
    ring
  have hW : rest.map rowW = specWeightsAmended rest := rfl
  refine ⟨?_, ?_, ?_⟩
  · simp [specRowsA]
  · simp only [estimateMultiSensorPosition, hA, hB, hW]
  · simp only [estimateMultiSensorPosition, hA, hB, hW]

/-- Witness for the amended claim C1 at a concrete 3-sensor input. -/
theorem estimateMultiSensorPosition_weights_witness :
    2 ≤ ([⟨1, 0, 1, some (-80)⟩, ⟨0, 1, 1, none⟩] : List LocalObs).length ∧
    ((specRowsA ⟨0, 0, 1, none⟩
        [⟨1, 0, 1, some (-80)⟩, ⟨0, 1, 1, none⟩]).length =
      ((⟨0, 0, 1, none⟩ : LocalObs) ::
        [⟨1, 0, 1, some (-80)⟩, ⟨0, 1, 1, none⟩]).length - 1 ∧
    (estimateMultiSensorPosition ⟨0, 0, 1, none⟩
        [⟨1, 0, 1, some (-80)⟩, ⟨0, 1, 1, none⟩]).x =
      (solveWeightedLeastSquares
        (specRowsA ⟨0, 0, 1, none⟩ [⟨1, 0, 1, some (-80)⟩, ⟨0, 1, 1, none⟩])
        (specRhsB ⟨0, 0, 1, none⟩ [⟨1, 0, 1, some (-80)⟩, ⟨0, 1, 1, none⟩])
        (specWeightsAmended [⟨1, 0, 1, some (-80)⟩, ⟨0, 1, 1, none⟩])).1 ∧
    (estimateMultiSensorPosition ⟨0, 0, 1, none⟩
        [⟨1, 0, 1, some (-80)⟩, ⟨0, 1, 1, none⟩]).y =
      (solveWeightedLeastSquares
        (specRowsA ⟨0, 0, 1, none⟩ [⟨1, 0, 1, some (-80)⟩, ⟨0, 1, 1, none⟩])
        (specRhsB ⟨0, 0, 1, none⟩ [⟨1, 0, 1, some (-80)⟩, ⟨0, 1, 1, none⟩])
        (specWeightsAmended [⟨1, 0, 1, some (-80)⟩, ⟨0, 1, 1, none⟩])).2) :=
  ⟨by norm_num,
   estimateMultiSensorPosition_weights ⟨0, 0, 1, none⟩
     [⟨1, 0, 1, some (-80)⟩, ⟨0, 1, 1, none⟩] (by norm_num)⟩

/-- Counterexample to claim C1 as stated: with four sensors of which the
last reports rssi = 0 (present, not missing), the position the code
computes differs from the solution of the normal equations built with the
weight formula of the claim, because the JS truthiness guard maps rssi = 0 to
the signal factor 1 instead of 10^((0+100)/20) = 100000. -/
theorem estimateMultiSensorPosition_weights_counterexample :
    (estimateMultiSensorPosition ⟨0, 0, 1, none⟩
      [⟨1, 0, 1, none⟩, ⟨0, 1, 2, none⟩, ⟨1, 1, 1, some 0⟩]).x ≠
    (solveWeightedLeastSquares
      (specRowsA ⟨0, 0, 1, none⟩
        [⟨1, 0, 1, none⟩, ⟨0, 1, 2, none⟩, ⟨1, 1, 1, some 0⟩])
      (specRhsB ⟨0, 0, 1, none⟩
        [⟨1, 0, 1, none⟩, ⟨0, 1, 2, none⟩, ⟨1, 1, 1, some 0⟩])
      (specWeightsClaim [⟨1, 0, 1, none⟩, ⟨0, 1, 2, none⟩, ⟨1, 1, 1, some 0⟩])).1
    := by
  have hpow : (10 : ℝ) ^ (((0 : ℝ) + 100) / 20) = 100000 := by
    rw [show ((0 : ℝ) + 100) / 20 = ((5 : ℕ) : ℝ) by norm_num,
      Real.rpow_natCast]
    norm_num
  have hL : (estimateMultiSensorPosition ⟨0, 0, 1, none⟩
      [⟨1, 0, 1, none⟩, ⟨0, 1, 2, none⟩, ⟨1, 1, 1, some 0⟩]).x = 13 / 14 := by
    norm_num [estimateMultiSensorPosition, solveWeightedLeastSquares,
      rowA, rowB, rowW, List.zip]
    rw [if_neg (show ¬(|(28 : ℝ) / 3| < 1 / 10000000000) by
      rw [abs_of_nonneg (by norm_num : (0 : ℝ) ≤ 28 / 3)]; norm_num)]
  have hR : (solveWeightedLeastSquares
      (specRowsA ⟨0, 0, 1, none⟩
        [⟨1, 0, 1, none⟩, ⟨0, 1, 2, none⟩, ⟨1, 1, 1, some 0⟩])
      (specRhsB ⟨0, 0, 1, none⟩
        [⟨1, 0, 1, none⟩, ⟨0, 1, 2, none⟩, ⟨1, 1, 1, some 0⟩])
      (specWeightsClaim [⟨1, 0, 1, none⟩, ⟨0, 1, 2, none⟩,
        ⟨1, 1, 1, some 0⟩])).1 = 550001 / 500002 := by
    norm_num [solveWeightedLeastSquares, specRowsA, specRhsB,
      specWeightsClaim, List.zip, hpow]
    rw [if_neg (show ¬(|(2000008 : ℝ) / 3| < 1 / 10000000000) by
      rw [abs_of_nonneg (by norm_num : (0 : ℝ) ≤ 2000008 / 3)]; norm_num)]
  rw [hL, hR]
  norm_num

/-- Claim C5: on the first call for a device (no stored state) the
filter returns the measured position unchanged and stores a state
anchored at that measurement, with local state vector (0, 0, 0, 0) and
covariance diag(100, 100, 10, 10); on every later call for that device
the measurement is projected into the SAME stored anchor frame, the
stored anchor is left unchanged by the update, and the output is
projected back through that same anchor. -/
theorem applyKalmanFilter_spec :
    (∀ (states : List (String × KState)) (deviceId : String) (lat lng q : ℝ),
      lookupState states deviceId = none →
        (applyKalmanFilter states deviceId lat lng q).1 = (lat, lng) ∧
        (applyKalmanFilter states deviceId lat lng q).2 =
          setState states deviceId
            ⟨⟨0, 0, 0, 0⟩, initialCovariance, lat, lng⟩) ∧
    (∀ (states : List (String × KState)) (deviceId : String)
      (lat lng q : ℝ) (st : KState),
      lookupState states deviceId = some st →
        (applyKalmanFilter states deviceId lat lng q).2 =
          setState states deviceId
            { st with
              vec := (kalmanUpdate (kalmanPredict st.vec st.P kalmanDt)
                (gpsToMeters lat lng st.refLat st.refLng).1
                (gpsToMeters lat lng st.refLat st.refLng).2
                (measurementNoiseBase * (1 + q / 10))).1
              P := (kalmanUpdate (kalmanPredict st.vec st.P kalmanDt)
                (gpsToMeters lat lng st.refLat st.refLng).1
                (gpsToMeters lat lng st.refLat st.refLng).2
                (measurementNoiseBase * (1 + q / 10))).2 } ∧
        (applyKalmanFilter states deviceId lat lng q).1 =
          metersToGps
            (kalmanUpdate (kalmanPredict st.vec st.P kalmanDt)
              (gpsToMeters lat lng st.refLat st.refLng).1
              (gpsToMeters lat lng st.refLat st.refLng).2
              (measurementNoiseBase * (1 + q / 10))).1.v0
            (kalmanUpdate (kalmanPredict st.vec st.P kalmanDt)
              (gpsToMeters lat lng st.refLat st.refLng).1
              (gpsToMeters lat lng st.refLat st.refLng).2
              (measurementNoiseBase * (1 + q / 10))).1.v1
            st.refLat st.refLng) := by
  have hzero : ∀ lat lng : ℝ, gpsToMeters lat lng lat lng = (0, 0) := by
    intro lat lng
    simp [gpsToMeters]
  constructor
  · intro states deviceId lat lng q h
    constructor
    · simp only [applyKalmanFilter, h]
    · simp only [applyKalmanFilter, h, hzero]
  · intro states deviceId lat lng q st h
    constructor
    · simp only [applyKalmanFilter, h]
    · simp only [applyKalmanFilter, h]

/-- Witness for claim C5: the very first call for device d at (50, 6)
returns (50, 6) and stores the freshly anchored state. -/
theorem applyKalmanFilter_spec_witness :
    lookupState ([] : List (String × KState)) "d" = none ∧
    ((applyKalmanFilter [] "d" 50 6 0).1 = (50, 6) ∧
     (applyKalmanFilter [] "d" 50 6 0).2 =
       setState [] "d" ⟨⟨0, 0, 0, 0⟩, initialCovariance, 50, 6⟩) :=
  ⟨rfl, applyKalmanFilter_spec.1 [] "d" 50 6 0 rfl⟩

/-- Helper: the filter predicate of `trilaterate` holds exactly for
distances strictly between 0 and 200. -/
theorem validObsB_iff (o : Obs) :
    validObsB o = true ↔ 0 < o.distance ∧ o.distance < 200 := by
  simp [validObsB]

/-- Claim C8: `trilaterate` discards exactly the observations with
distance <= 0 or distance >= 200, before any strategy selection; it
returns `none` (no estimate, no error) precisely when no observation
survives; and whenever at least one observation survives it returns an
estimate carrying exactly the surviving observations. -/
theorem trilaterate_filter_spec (observations : List Obs) :
    (∀ o ∈ observations,
      o ∉ observations.filter validObsB ↔
        (o.distance ≤ 0 ∨ 200 ≤ o.distance)) ∧
    (trilaterate observations = none ↔
      observations.filter validObsB = []) ∧
    (observations.filter validObsB ≠ [] →
      ∃ r, trilaterate observations = some r ∧
        r.observations = observations.filter validObsB ∧
        r.sensorCount = (observations.filter validObsB).length) := by
  refine ⟨?_, ?_⟩
  · intro o ho
    rw [List.mem_filter]
    constructor
    · intro hnot
      by_contra hc
      push_neg at hc
      exact hnot ⟨ho, (validObsB_iff o).2 hc⟩
    · intro hd hmem
      rcases (validObsB_iff o).1 hmem.2 with ⟨h1, h2⟩
      rcases hd with h | h
      · exact absurd h1 (not_lt_of_le h)
      · exact absurd h2 (not_lt_of_le h)
  · cases h : observations.filter validObsB with
    | nil =>
      constructor
      · simp [trilaterate, h]
      · intro hne
        exact absurd rfl hne
    | cons o1 rest =>
      constructor
      · simp [trilaterate, h]
      · intro _
        simp only [trilaterate, h]
        exact ⟨_, rfl, rfl, rfl⟩

/-- Witness for claim C8: one valid observation (distance 5) and one
out-of-range observation (distance 250); the filter keeps only the
first and an estimate is returned. -/
theorem trilaterate_filter_spec_witness :
    ([(⟨0, 6, 5, none, none⟩ : Obs), ⟨0, 6, 250, none, none⟩].filter validObsB ≠ []) ∧
    (∃ r, trilaterate [(⟨0, 6, 5, none, none⟩ : Obs), ⟨0, 6, 250, none, none⟩] = some r ∧
      r.observations =
        [(⟨0, 6, 5, none, none⟩ : Obs), ⟨0, 6, 250, none, none⟩].filter validObsB ∧
      r.sensorCount =
        ([(⟨0, 6, 5, none, none⟩ : Obs), ⟨0, 6, 250, none, none⟩].filter validObsB).length) := by
  have hg : validObsB (⟨0, 6, 5, none, none⟩ : Obs) = true := by
    rw [validObsB_iff]
    norm_num
  have hb : validObsB (⟨0, 6, 250, none, none⟩ : Obs) = false := by
    rw [← Bool.not_eq_true, validObsB_iff]
    norm_num
  have hfil : [(⟨0, 6, 5, none, none⟩ : Obs), ⟨0, 6, 250, none, none⟩].filter validObsB =
      [(⟨0, 6, 5, none, none⟩ : Obs)] := by
    simp [List.filter_cons, hg, hb]
  have hne : [(⟨0, 6, 5, none, none⟩ : Obs), ⟨0, 6, 250, none, none⟩].filter validObsB ≠ [] := by
    rw [hfil]
    simp
  exact ⟨hne,
    (trilaterate_filter_spec
      [(⟨0, 6, 5, none, none⟩ : Obs), ⟨0, 6, 250, none, none⟩]).2.2 hne⟩

/-- Claim C3 (code bug): an aggregator-built observation carries no
`mac_hashed` field, so the single-sensor branch always uses angle 0 and
the device is placed due north of the sensor (longitude unchanged),
for EVERY device; the hash bearing documented in the code and the spec
(97 degrees for a device identifier a, whose sine is positive) would
move the longitude, so the shipped pipeline never realizes it. -/
theorem trilaterate_singleSensor_bearing :
    (∃ r, trilaterate [(⟨0, 6, 5, none, none⟩ : Obs)] = some r ∧ r.lng = 6) ∧
    hashAngleDeg "a" = 97 ∧
    (singleSensorEstimate (⟨0, 6, 5, none, some "a"⟩ : Obs)).2.2 ≠ 6 := by
  have h97 : hashAngleDeg "a" = 97 := by decide
  have hg : validObsB (⟨0, 6, 5, none, none⟩ : Obs) = true := by
    rw [validObsB_iff]
    norm_num
  have hfil : [(⟨0, 6, 5, none, none⟩ : Obs)].filter validObsB =
      [(⟨0, 6, 5, none, none⟩ : Obs)] := by
    simp [List.filter_cons, hg]
  refine ⟨?_, h97, ?_⟩
  · simp only [trilaterate, hfil]
    refine ⟨_, rfl, ?_⟩
    show (singleSensorEstimate (⟨0, 6, 5, none, none⟩ : Obs)).2.2 = 6
    simp [singleSensorEstimate, singleSensorAngle]
  · have hθ : singleSensorAngle (⟨0, 6, 5, none, some "a"⟩ : Obs) =
        97 * Real.pi / 180 := by
      simp only [singleSensorAngle]
      rw [if_neg (by decide : ¬("a" = ""))]
      rw [h97]
      norm_num
    have hπ := Real.pi_pos
    have hsin : 0 < Real.sin (97 * Real.pi / 180) := by
      apply Real.sin_pos_of_pos_of_lt_pi
      · positivity
      · nlinarith
    have hlng : (singleSensorEstimate (⟨0, 6, 5, none, some "a"⟩ : Obs)).2.2 =
        6 + 5 * Real.sin (97 * Real.pi / 180) /
          (earthRadius * Real.cos (0 * Real.pi / 180)) * (180 / Real.pi) := by
      simp only [singleSensorEstimate, hθ]
    rw [hlng]
    have hcos : Real.cos (0 * Real.pi / 180) = 1 := by
      rw [show (0 : ℝ) * Real.pi / 180 = 0 by ring, Real.cos_zero]
    rw [hcos]
    have hpos : 0 < 5 * Real.sin (97 * Real.pi / 180) /
        (earthRadius * 1) * (180 / Real.pi) := by
      rw [show earthRadius * 1 = 6371000 by rw [earthRadius]; ring]
      positivity
    intro heq
    nlinarith

/-- Helper: a fold that skips elements failing a test equals the fold
over the filtered list. -/
theorem foldl_if_filter {α β : Type} (c : β → Prop) [DecidablePred c]
    (g : α → β → α) (l : List β) (st : α) :
    l.foldl (fun st x => if c x then g st x else st) st =
      (l.filter (fun x => decide (c x))).foldl g st := by
  induction l generalizing st with
  | nil => rfl
  | cons a l ih =>
    by_cases h : c a
    · simp [List.filter_cons, h, ih]
    · simp [List.filter_cons, h, ih]

/-- Helper: folding over a flattened list equals the nested fold. -/
theorem foldl_flatMap {α β γ : Type} (f : β → List γ) (g : α → γ → α)
    (l : List β) (st : α) :
    (l.flatMap f).foldl g st =
      l.foldl (fun st x => (f x).foldl g st) st := by
  induction l generalizing st with
  | nil => rfl
  | cons a l ih => simp [List.flatMap_cons, List.foldl_append, ih]

/-- Helper: the nested aggregation loop equals the flat fold over the
flattened in-window traversal sequence. -/
theorem getDevices_eq_aggFold (store : Store) (target W : ℤ) :
    getDevicesInTimeWindow store target W =
      (aggFold target (windowTriples store target W) ⟨[], []⟩).deviceMap := by
  unfold getDevicesInTimeWindow aggFold windowTriples
  rw [foldl_if_filter (fun ts => target - W ≤ ts ∧ ts ≤ target + W)]
  congr 1
  rw [foldl_flatMap]
  congr 1
  funext st ts
  rw [foldl_flatMap]
  congr 1
  funext st e
  rw [List.foldl_map]

/-- Helper: the device map built by the aggregation fold is the grouping
fold over the key-deduplicated traversal sequence. -/
theorem aggFold_deviceMap (target : ℤ)
    (L : List (ℤ × SensorEntry × DevReading)) (seen : List String)
    (m : List (String × List AggObs)) :
    (aggFold target L ⟨seen, m⟩).deviceMap =
      (keptBy tripleKey L seen).foldl
        (fun m t => pushObs m (tripleMac t) (mkAggObs target t.1 t.2.1 t.2.2))
        m := by
  induction L generalizing seen m with
  | nil => rfl
  | cons t L ih =>
    simp only [aggFold, List.foldl_cons, keptBy]
    by_cases h : tripleKey t ∈ seen
    · rw [if_pos h]
      have hstep : aggStep target t.1 t.2.1 ⟨seen, m⟩ t.2.2 =
          (⟨seen, m⟩ : AggState) := by
        simp only [aggStep]
        rw [if_pos (show readingKey t.2.1 t.2.2 ∈ seen from h)]
      rw [hstep]
      exact ih seen m
    · rw [if_neg h]
      have hstep : aggStep target t.1 t.2.1 ⟨seen, m⟩ t.2.2 =
          (⟨tripleKey t :: seen,
            pushObs m (tripleMac t) (mkAggObs target t.1 t.2.1 t.2.2)⟩ :
            AggState) := by
        simp only [aggStep]
        rw [if_neg (show ¬(readingKey t.2.1 t.2.2 ∈ seen) from h)]
        rfl
      rw [hstep, List.foldl_cons]
      exact ih _ _

/-- Helper: when the string keys are injective with respect to the
(sensor, device) pairs, deduplicating the traversal by key string and
deduplicating it by pair keep the same elements. -/
theorem keptBy_key_eq_pair (L : List (ℤ × SensorEntry × DevReading))
    (seenP : List (String × String))
    (hinj : ∀ u ∈ L, ∀ v ∈ L, tripleKey u = tripleKey v →
      triplePair u = triplePair v)
    (hseen : ∀ u ∈ L, ∀ p ∈ seenP, keyOfPair p = tripleKey u →
      p = triplePair u) :
    keptBy tripleKey L (seenP.map keyOfPair) = keptBy triplePair L seenP := by
  induction L generalizing seenP with
  | nil => rfl
  | cons t L ih =>
    have hmem : tripleKey t ∈ seenP.map keyOfPair ↔ triplePair t ∈ seenP := by
      constructor
      · intro hm
        rcases List.mem_map.1 hm with ⟨p, hp, hpk⟩
        have hpt := hseen t (List.mem_cons_self t L) p hp hpk
        rw [← hpt]
        exact hp
      · intro hm
        exact List.mem_map.2 ⟨triplePair t, hm, rfl⟩
    have hinjL : ∀ u ∈ L, ∀ v ∈ L, tripleKey u = tripleKey v →
        triplePair u = triplePair v := fun u hu v hv =>
      hinj u (List.mem_cons_of_mem t hu) v (List.mem_cons_of_mem t hv)
    simp only [keptBy]
    by_cases h : triplePair t ∈ seenP
    · rw [if_pos (hmem.2 h), if_pos h]
      exact ih seenP hinjL
        (fun u hu => hseen u (List.mem_cons_of_mem t hu))
    · rw [if_neg (fun hc => h (hmem.1 hc)), if_neg h]
      congr 1
      have hlist : (triplePair t :: seenP).map keyOfPair =
          tripleKey t :: seenP.map keyOfPair := rfl
      rw [← hlist]
      refine ih (triplePair t :: seenP) hinjL ?_
      intro u hu p hp hk
      rcases List.mem_cons.1 hp with hpt | hps
      · subst hpt
        exact hinj t (List.mem_cons_self t L) u (List.mem_cons_of_mem t hu) hk
      · exact hseen u (List.mem_cons_of_mem t hu) p hps hk

/-- Helper: accumulator-style pair deduplication equals the
filter-recursion formulation of the spec model. -/
theorem keptBy_pair_eq_specKeeps (L : List (ℤ × SensorEntry × DevReading))
    (seen : List (String × String)) :
    keptBy triplePair L seen =
      specKeeps (L.filter (fun u => decide (triplePair u ∉ seen))) := by
  induction L generalizing seen with
  | nil => simp [keptBy, specKeeps]
  | cons t L ih =>
    by_cases h : triplePair t ∈ seen
    · simp only [keptBy, List.filter_cons]
      rw [if_pos h]
      rw [show (decide (triplePair t ∉ seen)) = false by simp [h]]
      simp only [Bool.false_eq_true, if_false]
      exact ih seen
    · simp only [keptBy, List.filter_cons]
      rw [if_neg h]
      rw [show (decide (triplePair t ∉ seen)) = true by simp [h]]
      simp only [if_true]
      rw [specKeeps]
      congr 1
      rw [ih (triplePair t :: seen), List.filter_filter]
      congr 1
      refine List.filter_congr ?_
      intro u _
      by_cases h1 : triplePair u = triplePair t <;>
        by_cases h2 : triplePair u ∈ seen <;>
          simp [h1, h2, List.mem_cons]

/-- Helper: the deduplicated traversal is a subsequence of elements of
the traversal. -/
theorem keptBy_mem {κ : Type} [DecidableEq κ]
    (f : (ℤ × SensorEntry × DevReading) → κ)
    (L : List (ℤ × SensorEntry × DevReading)) (seen : List κ)
    (t : ℤ × SensorEntry × DevReading) (ht : t ∈ keptBy f L seen) :
    t ∈ L := by
  induction L generalizing seen with
  | nil => exact absurd ht (by simp [keptBy])
  | cons v L ih =>
    simp only [keptBy] at ht
    by_cases h : f v ∈ seen
    · rw [if_pos h] at ht
      exact List.mem_cons_of_mem v (ih seen ht)
    · rw [if_neg h] at ht
      rcases List.mem_cons.1 ht with hv | hrest
      · rw [hv]
        exact List.mem_cons_self v L
      · exact List.mem_cons_of_mem v (ih _ hrest)

/-- Helper: the key of a kept element was not among the already-seen keys. -/
theorem keptBy_not_seen {κ : Type} [DecidableEq κ]
    (f : (ℤ × SensorEntry × DevReading) → κ)
    (L : List (ℤ × SensorEntry × DevReading)) (seen : List κ)
    (t : ℤ × SensorEntry × DevReading) (ht : t ∈ keptBy f L seen) :
    f t ∉ seen := by
  induction L generalizing seen with
  | nil => exact absurd ht (by simp [keptBy])
  | cons v L ih =>
    simp only [keptBy] at ht
    by_cases h : f v ∈ seen
    · rw [if_pos h] at ht
      exact ih seen ht
    · rw [if_neg h] at ht
      rcases List.mem_cons.1 ht with hv | hrest
      · rw [hv]
        exact h
      · intro hc
        exact ih _ hrest (List.mem_cons_of_mem _ hc)

/-- Helper: the keys of the deduplicated traversal are pairwise
distinct (at most one kept element per key). -/
theorem keptBy_map_nodup {κ : Type} [DecidableEq κ]
    (f : (ℤ × SensorEntry × DevReading) → κ)
    (L : List (ℤ × SensorEntry × DevReading)) (seen : List κ) :
    ((keptBy f L seen).map f).Nodup := by
  induction L generalizing seen with
  | nil => simp [keptBy]
  | cons v L ih =>
    simp only [keptBy]
    by_cases h : f v ∈ seen
    · rw [if_pos h]
      exact ih seen
    · rw [if_neg h]
      simp only [List.map_cons, List.nodup_cons]
      constructor
      · intro hc
        rcases List.mem_map.1 hc with ⟨u, hu, hfu⟩
        exact keptBy_not_seen f L _ u hu (by rw [hfu]; exact List.mem_cons_self _ _)
      · exact ih _

/-- Helper: when the traversal is sorted by timestamp, a kept element
is at least as early as every traversal element with the same pair. -/
theorem keptBy_first (L : List (ℤ × SensorEntry × DevReading))
    (hL : L.Pairwise (fun a b => a.1 ≤ b.1))
    (seen : List (String × String)) (t : ℤ × SensorEntry × DevReading)
    (ht : t ∈ keptBy triplePair L seen) :
    ∀ u ∈ L, triplePair u = triplePair t → t.1 ≤ u.1 := by
  induction L generalizing seen with
  | nil => exact absurd ht (by simp [keptBy])
  | cons v L ih =>
    rcases List.pairwise_cons.1 hL with ⟨hrel, htail⟩
    simp only [keptBy] at ht
    intro u hu hpu
    by_cases h : triplePair v ∈ seen
    · rw [if_pos h] at ht
      rcases List.mem_cons.1 hu with huv | hurest
      · exfalso
        apply keptBy_not_seen triplePair L seen t ht
        rw [← hpu, huv]
        exact h
      · exact ih htail seen ht u hurest hpu
    · rw [if_neg h] at ht
      rcases List.mem_cons.1 ht with htv | htrest
      · rcases List.mem_cons.1 hu with huv | hurest
        · rw [htv, huv]
        · rw [htv]
          exact hrel u hurest
      · rcases List.mem_cons.1 hu with huv | hurest
        · exfalso
          apply keptBy_not_seen triplePair L _ t htrest
          rw [← hpu, huv]
          exact List.mem_cons_self _ _
        · exact ih htail _ htrest u hurest hpu

/-- Helper: effect of one push on a lookup. -/
theorem lookupMap_pushObs (m : List (String × List AggObs)) (mac : String)
    (o : AggObs) (mac' : String) :
    lookupMap (pushObs m mac o) mac' =
      if mac' = mac then some ((lookupMap m mac').getD [] ++ [o])
      else lookupMap m mac' := by
  induction m with
  | nil =>
    by_cases h : mac' = mac
    · subst h
      simp [pushObs, lookupMap]
    · have h' : ¬(mac = mac') := fun hc => h hc.symm
      simp [pushObs, lookupMap, h, h']
  | cons kv m ih =>
    obtain ⟨k, xs⟩ := kv
    simp only [pushObs]
    by_cases hk : k = mac
    · subst hk
      by_cases h' : k = mac'
      · subst h'
        simp [lookupMap]
      · have h'' : ¬(mac' = k) := fun hc => h' hc.symm
        simp [lookupMap, h', h'']
    · rw [if_neg hk]
      by_cases h' : k = mac'
      · subst h'
        simp [lookupMap, hk]
      · simp [lookupMap, h', ih]

/-- Helper: the keys after a push. -/
theorem pushObs_keys (m : List (String × List AggObs)) (mac : String)
    (o : AggObs) :
    (pushObs m mac o).map Prod.fst =
      if mac ∈ m.map Prod.fst then m.map Prod.fst
      else m.map Prod.fst ++ [mac] := by
  induction m with
  | nil => simp [pushObs]
  | cons kv m ih =>
    obtain ⟨k, xs⟩ := kv
    simp only [pushObs]
    by_cases hk : k = mac
    · subst hk
      simp
    · rw [if_neg hk]
      simp only [List.map_cons]
      rw [ih]
      by_cases hm : mac ∈ m.map Prod.fst
      · rw [if_pos hm, if_pos (List.mem_cons_of_mem k hm)]
      · rw [if_neg hm, if_neg (by
          simp only [List.mem_cons, not_or]
          exact ⟨fun hc => hk hc.symm, hm⟩)]
        simp

/-- Helper: the grouping fold preserves distinctness of the device keys
of the map. -/
theorem groupFold_keys_nodup (target : ℤ)
    (K : List (ℤ × SensorEntry × DevReading)) :
    ∀ m : List (String × List AggObs), (m.map Prod.fst).Nodup →
    ((K.foldl (fun m t => pushObs m (tripleMac t)
        (mkAggObs target t.1 t.2.1 t.2.2)) m).map Prod.fst).Nodup := by
  induction K with
  | nil => intro m hm; exact hm
  | cons t K ih =>
    intro m hm
    rw [List.foldl_cons]
    apply ih
    rw [pushObs_keys]
    by_cases hmem : tripleMac t ∈ m.map Prod.fst
    · rw [if_pos hmem]
      exact hm
    · rw [if_neg hmem]
      exact List.nodup_append.2 ⟨hm, List.nodup_singleton _,
        fun a ha hc => hmem (by
          rcases List.mem_cons.1 hc with h1 | h1
          · rw [← h1]; exact ha
          · exact absurd h1 (List.not_mem_nil a))⟩

/-- Helper: under distinct keys, association-list membership determines
the lookup. -/
theorem lookupMap_of_mem (m : List (String × List AggObs))
    (hnd : (m.map Prod.fst).Nodup) (mac : String) (l : List AggObs)
    (h : (mac, l) ∈ m) : lookupMap m mac = some l := by
  induction m with
  | nil => exact absurd h (List.not_mem_nil _)
  | cons kv m ih =>
    obtain ⟨k, xs⟩ := kv
    rw [List.map_cons] at hnd
    rcases List.nodup_cons.1 hnd with ⟨hk, hm⟩
    rcases List.mem_cons.1 h with h1 | h1
    · rw [Prod.mk.injEq] at h1
      obtain ⟨rfl, rfl⟩ := h1
      simp [lookupMap]
    · have hkm : k ≠ mac := by
        intro hc
        subst hc
        exact hk (List.mem_map.2 ⟨(k, l), h1, rfl⟩)
      simp only [lookupMap]
      rw [if_neg hkm]
      exact ih hm h1

/-- Helper: the content of the entry of a device after the grouping fold. -/
theorem lookupMap_groupFold_getD (target : ℤ)
    (K : List (ℤ × SensorEntry × DevReading)) :
    ∀ (m : List (String × List AggObs)) (mac : String),
    (lookupMap (K.foldl (fun m t => pushObs m (tripleMac t)
        (mkAggObs target t.1 t.2.1 t.2.2)) m) mac).getD [] =
      (lookupMap m mac).getD [] ++
        (K.filter (fun t => decide (tripleMac t = mac))).map
          (fun t => mkAggObs target t.1 t.2.1 t.2.2) := by
  induction K with
  | nil => intro m mac; simp
  | cons t K ih =>
    intro m mac
    rw [List.foldl_cons, ih, List.filter_cons]
    by_cases h : tripleMac t = mac
    · rw [if_pos (by simp [h])]
      rw [lookupMap_pushObs]
      rw [if_pos h.symm]
      simp
    · rw [if_neg (by simp [h])]
      rw [lookupMap_pushObs]
      rw [if_neg (fun hc => h hc.symm)]

/-- Helper: flattening timestamp-tagged blocks of a sorted timestamp list
yields a sequence sorted by the tag. -/
theorem flatMap_pairwise_fst (l : List ℤ)
    (f : ℤ → List (ℤ × SensorEntry × DevReading))
    (hf : ∀ ts, ∀ u ∈ f ts, u.1 = ts) (hl : l.Pairwise (· ≤ ·)) :
    (l.flatMap f).Pairwise (fun a b => a.1 ≤ b.1) := by
  induction l with
  | nil => simp
  | cons a l ih =>
    rcases List.pairwise_cons.1 hl with ⟨hrel, htail⟩
    rw [List.flatMap_cons, List.pairwise_append]
    refine ⟨?_, ih htail, ?_⟩
    · apply List.pairwise_of_forall_mem_list
      intro u hu v hv
      rw [hf a u hu, hf a v hv]
    · intro u hu v hv
      rcases List.mem_flatMap.1 hv with ⟨b, hb, hvb⟩
      rw [hf a u hu, hf b v hvb]
      exact hrel b hb

/-- Helper: every element of the flattened traversal carries the
timestamp it was visited under, and the traversal of a sorted store is
sorted by timestamp. -/
theorem windowTriples_pairwise (store : Store) (target W : ℤ)
    (h : store.timestamps.Pairwise (· ≤ ·)) :
    (windowTriples store target W).Pairwise (fun a b => a.1 ≤ b.1) := by
  unfold windowTriples
  apply flatMap_pairwise_fst
  · intro ts u hu
    rcases List.mem_flatMap.1 hu with ⟨e, _, hue⟩
    rcases List.mem_map.1 hue with ⟨d, _, hud⟩
    rw [← hud]
  · exact h.filter _

/-- Helper: the key-deduplicated traversal equals the pair-deduplicated
traversal under key injectivity, starting from no seen keys. -/
theorem keptBy_key_eq_pair_nil (L : List (ℤ × SensorEntry × DevReading))
    (hinj : ∀ u ∈ L, ∀ v ∈ L, tripleKey u = tripleKey v →
      triplePair u = triplePair v) :
    keptBy tripleKey L [] = keptBy triplePair L [] := by
  have h := keptBy_key_eq_pair L [] hinj
    (fun u _ p hp => absurd hp (List.not_mem_nil p))
  exact h

/-- Helper: pair deduplication from no seen pairs is the spec model. -/
theorem keptBy_pair_nil_eq_specKeeps
    (L : List (ℤ × SensorEntry × DevReading)) :
    keptBy triplePair L [] = specKeeps L := by
  rw [keptBy_pair_eq_specKeeps]
  congr 1
  rw [show (fun u => decide (triplePair u ∉ ([] : List (String × String)))) =
    fun _ => true by funext u; simp]
  exact List.filter_true L

/-- Claim C4, amended: with the (sensor, device) identities recoverable
from the concatenated deduplication key (no underscore-collision between
the key of one pair and the key of a different pair, hypothesis hinj),
the aggregator returns, grouped by device, exactly the in-window readings
as described by the spec model: at most one reading per (sensor, device)
pair across the whole window, first-seen in the sorted timestamp order
(hence an earliest in-window occurrence) winning, later duplicates
discarded, and an empty map when no historical timestamp lies in the
window. -/
theorem getDevicesInTimeWindow_spec (store : Store) (target W : ℤ)
    (_hW : 0 ≤ W)
    (hsorted : store.timestamps.Pairwise (· ≤ ·))
    (hinj : ∀ u ∈ windowTriples store target W,
      ∀ v ∈ windowTriples store target W,
      tripleKey u = tripleKey v → triplePair u = triplePair v) :
    getDevicesInTimeWindow store target W = specAggregate store target W ∧
    ((∀ ts ∈ store.timestamps, ¬(|ts - target| ≤ W)) →
      getDevicesInTimeWindow store target W = []) ∧
    (∀ mac l, (mac, l) ∈ getDevicesInTimeWindow store target W →
      (l.map AggObs.sensor_id).Nodup ∧
      (∀ o ∈ l, ∀ u ∈ windowTriples store target W,
        triplePair u = (o.sensor_id, mac) →
        o.original_timestamp ≤ u.1)) := by
  have hchain : getDevicesInTimeWindow store target W =
      specAggregate store target W := by
    rw [getDevices_eq_aggFold, aggFold_deviceMap,
      keptBy_key_eq_pair_nil _ hinj, keptBy_pair_nil_eq_specKeeps]
    rfl
  refine ⟨hchain, ?_, ?_⟩
  · intro hno
    have hfil : store.timestamps.filter
        (fun ts => decide (target - W ≤ ts ∧ ts ≤ target + W)) = [] := by
      rw [List.filter_eq_nil_iff]
      intro ts hts hc
      rw [decide_eq_true_eq] at hc
      apply hno ts hts
      rw [abs_le]
      omega
    have hwt : windowTriples store target W = [] := by
      unfold windowTriples
      rw [hfil]
      rfl
    rw [getDevices_eq_aggFold, hwt]
    rfl
  · intro mac l hml
    have hout : getDevicesInTimeWindow store target W =
        (keptBy tripleKey (windowTriples store target W) []).foldl
          (fun m t => pushObs m (tripleMac t)
            (mkAggObs target t.1 t.2.1 t.2.2)) [] := by
      rw [getDevices_eq_aggFold, aggFold_deviceMap]
    have hnd : ((getDevicesInTimeWindow store target W).map
        Prod.fst).Nodup := by
      rw [hout]
      exact groupFold_keys_nodup target _ [] (by simp)
    have hlook : lookupMap (getDevicesInTimeWindow store target W) mac =
        some l := lookupMap_of_mem _ hnd mac l hml
    have hl : l = ((keptBy tripleKey (windowTriples store target W)
        []).filter (fun t => decide (tripleMac t = mac))).map
          (fun t => mkAggObs target t.1 t.2.1 t.2.2) := by
      have hg := lookupMap_groupFold_getD target
        (keptBy tripleKey (windowTriples store target W) []) [] mac
      rw [← hout, hlook] at hg
      simpa using hg
    have hkp : keptBy tripleKey (windowTriples store target W) [] =
        keptBy triplePair (windowTriples store target W) [] :=
      keptBy_key_eq_pair_nil _ hinj
    have hpairs : (((keptBy tripleKey (windowTriples store target W)
        []).filter (fun t => decide (tripleMac t = mac))).map
          triplePair).Nodup := by
      apply List.Nodup.sublist
        (List.Sublist.map triplePair (List.filter_sublist _))
      rw [hkp]
      exact keptBy_map_nodup triplePair _ []
    constructor
    · rw [hl, List.map_map]
      have hflt : ((keptBy tripleKey (windowTriples store target W)
          []).filter (fun t => decide (tripleMac t = mac))).Nodup :=
        List.Nodup.of_map triplePair hpairs
      apply List.Nodup.map_on ?_ hflt
      intro x hx y hy hxy
      have hx2 : tripleMac x = mac := by
        have := (List.mem_filter.1 hx).2
        rwa [decide_eq_true_eq] at this
      have hy2 : tripleMac y = mac := by
        have := (List.mem_filter.1 hy).2
        rwa [decide_eq_true_eq] at this
      apply List.inj_on_of_nodup_map hpairs hx hy
      show (x.2.1.device_key, x.2.2.mac_hashed) =
        (y.2.1.device_key, y.2.2.mac_hashed)
      rw [Prod.mk.injEq]
      refine ⟨hxy, ?_⟩
      rw [show x.2.2.mac_hashed = tripleMac x from rfl, hx2, ← hy2]
      rfl
    · intro o ho u hu hpu
      rw [hl] at ho
      rcases List.mem_map.1 ho with ⟨t, htf, hto⟩
      rcases List.mem_filter.1 htf with ⟨htk, htmac⟩
      rw [decide_eq_true_eq] at htmac
      subst hto
      have hp : triplePair u = triplePair t := by
        rw [hpu]
        show (t.2.1.device_key, mac) =
          (t.2.1.device_key, t.2.2.mac_hashed)
        rw [Prod.mk.injEq]
        exact ⟨rfl, htmac.symm⟩
      exact keptBy_first (windowTriples store target W)
        (windowTriples_pairwise store target W hsorted) [] t
        (by rw [← hkp]; exact htk) u hu hp

/-- Counterexample to claim C4 as stated: the code deduplicates by the
concatenated string key sensor_mac, so the two DISTINCT (sensor, device)
pairs (a_b, c) and (a, b_c) collide on the key a_b_c; the reading of the
second pair is discarded although its pair was never seen, and device
b_c is missing from the returned map, contrary to pair-wise
deduplication. -/
theorem getDevicesInTimeWindow_counterexample :
    getDevicesInTimeWindow
      ⟨[0], [(0, [⟨"a_b", 0, 0, [⟨"c", 1, none⟩]⟩,
                  ⟨"a", 0, 0, [⟨"b_c", 2, none⟩]⟩])]⟩ 0 0 ≠
    specAggregate
      ⟨[0], [(0, [⟨"a_b", 0, 0, [⟨"c", 1, none⟩]⟩,
                  ⟨"a", 0, 0, [⟨"b_c", 2, none⟩]⟩])]⟩ 0 0 := by
  have hs : specAggregate
      ⟨[0], [(0, [⟨"a_b", 0, 0, [⟨"c", 1, none⟩]⟩,
                  ⟨"a", 0, 0, [⟨"b_c", 2, none⟩]⟩])]⟩ 0 0 =
      groupByDevice 0 (keptBy triplePair (windowTriples
        ⟨[0], [(0, [⟨"a_b", 0, 0, [⟨"c", 1, none⟩]⟩,
                    ⟨"a", 0, 0, [⟨"b_c", 2, none⟩]⟩])]⟩ 0 0) []) := by
    unfold specAggregate
    rw [← keptBy_pair_nil_eq_specKeeps]
  rw [hs]
  decide

/-- Witness for the amended claim C4, on the spec scenario: device D
seen by sensor A at t = 0 and by sensor B at t = 12000, window 15000,
query at 12000; the keys A_D and B_D are collision-free and the
aggregator agrees with the pair-deduplicating spec model. -/
theorem getDevicesInTimeWindow_spec_witness :
    (0 : ℤ) ≤ 15000 ∧
    List.Pairwise (· ≤ ·) ([0, 12000] : List ℤ) ∧
    (∀ u ∈ windowTriples
        ⟨[0, 12000], [(0, [⟨"A", 50, 6, [⟨"D", 5, none⟩]⟩]),
          (12000, [⟨"B", 50, 6, [⟨"D", 7, none⟩]⟩])]⟩ 12000 15000,
      ∀ v ∈ windowTriples
        ⟨[0, 12000], [(0, [⟨"A", 50, 6, [⟨"D", 5, none⟩]⟩]),
          (12000, [⟨"B", 50, 6, [⟨"D", 7, none⟩]⟩])]⟩ 12000 15000,
      tripleKey u = tripleKey v → triplePair u = triplePair v) ∧
    getDevicesInTimeWindow
      ⟨[0, 12000], [(0, [⟨"A", 50, 6, [⟨"D", 5, none⟩]⟩]),
        (12000, [⟨"B", 50, 6, [⟨"D", 7, none⟩]⟩])]⟩ 12000 15000 =
    specAggregate
      ⟨[0, 12000], [(0, [⟨"A", 50, 6, [⟨"D", 5, none⟩]⟩]),
        (12000, [⟨"B", 50, 6, [⟨"D", 7, none⟩]⟩])]⟩ 12000 15000 := by
  have hsorted : List.Pairwise (· ≤ ·) ([0, 12000] : List ℤ) := by decide
  have hinj : ∀ u ∈ windowTriples
      ⟨[0, 12000], [(0, [⟨"A", 50, 6, [⟨"D", 5, none⟩]⟩]),
        (12000, [⟨"B", 50, 6, [⟨"D", 7, none⟩]⟩])]⟩ 12000 15000,
      ∀ v ∈ windowTriples
        ⟨[0, 12000], [(0, [⟨"A", 50, 6, [⟨"D", 5, none⟩]⟩]),
          (12000, [⟨"B", 50, 6, [⟨"D", 7, none⟩]⟩])]⟩ 12000 15000,
      tripleKey u = tripleKey v → triplePair u = triplePair v := by decide
  exact ⟨by norm_num, hsorted, hinj,
    (getDevicesInTimeWindow_spec _ 12000 15000 (by norm_num) hsorted hinj).1⟩
